import Mathlib

/-!
Verification of the URL-shortener core: a shallow embedding of
`app/utils.py` (identifier generation), `app/storage.py` (the in-memory
store) and `app/url_service.py` (allocation and resolution), together
with theorems settling the specification's claims about them.

Machine-level conventions: Python strings are `List Char`, Python's
`dict[str, str]` is an association list where the most recent binding
shadows older ones, Python exceptions are `Except`/`Option` results, and
the per-call entropy of `secrets.token_hex(8)` is an explicit parameter.
SHA-256 itself is an external library primitive (`hashlib`), so the
embedding takes the hex-digest function as an explicit argument; nothing
proved here depends on which digest function is supplied.
-/

/-- Python's `string.ascii_lowercase`: the 26 characters from 'a'
(code point 97) upward. -/
def ascii_lowercase : List Char :=
  (List.range 26).map fun i => Char.ofNat ('a'.toNat + i)

/-- Python's `string.ascii_uppercase`: the 26 characters from 'A'
(code point 65) upward. -/
def ascii_uppercase : List Char :=
  (List.range 26).map fun i => Char.ofNat ('A'.toNat + i)

/-- Python's `string.digits`: the 10 characters from '0' (code point
48) upward. -/
def ascii_digits : List Char :=
  (List.range 10).map fun i => Char.ofNat ('0'.toNat + i)

/-- The alphabet `base62_chars = string.ascii_letters + string.digits`
built in `generate_short_id` (utils.py line 31); `string.ascii_letters`
is lowercase followed by uppercase. -/
def base62_chars : List Char := ascii_lowercase ++ ascii_uppercase ++ ascii_digits

/-- Value of one hexadecimal digit, as accepted by Python's
`int(s, 16)` (both letter cases); `none` on a non-hex character. -/
def hexDigitVal (c : Char) : Option ℕ :=
  if '0' ≤ c ∧ c ≤ '9' then some (c.toNat - 48)
  else if 'a' ≤ c ∧ c ≤ 'f' then some (c.toNat - 87)
  else if 'A' ≤ c ∧ c ≤ 'F' then some (c.toNat - 55)
  else none

/-- One accumulation step of `int(s, 16)`: multiply the value read so
far by the base and add the next digit, failing if an earlier character
already failed or the current one is not a hex digit. -/
def hexStep (acc : Option ℕ) (c : Char) : Option ℕ :=
  match acc with
  | none => none
  | some a =>
      match hexDigitVal c with
      | none => none
      | some v => some (16 * a + v)

/-- Python's `int(s, 16)` on a plain digit string: left-to-right
accumulation, failing (`none`) on the empty string or on any non-hex
character, mirroring the `ValueError` that `int` raises. -/
def parseHexNat (s : List Char) : Option ℕ :=
  if s.isEmpty then none else s.foldl hexStep (some 0)

/-- The digit loop of `generate_short_id` (utils.py lines 35-37):
`length` iterations of `hash_int, remainder = divmod(hash_int, 62)`
appending `base62_chars[remainder]`, least-significant digit first. -/
def base62_digits : ℕ → ℕ → List Char
  | _, 0 => []
  | hash_int, len + 1 =>
      base62_chars.getD (hash_int % 62) ' ' :: base62_digits (hash_int / 62) len

/-- Embedding of `generate_short_id(url, length=6)` from utils.py.
`sha256_hexdigest` stands for `hashlib.sha256(·).hexdigest()` and
`tok_hex` for the string returned by `secrets.token_hex(8)`; the body
hashes `url + token`, reads `int(hash_digest[:16], 16)` and runs the
base-62 digit loop. `none` models the `ValueError` that `int` would
raise on a malformed digest (real SHA-256 digests always parse). -/
def generate_short_id (sha256_hexdigest : List Char → List Char)
    (tok_hex : List Char) (url : List Char) (length : ℕ := 6) :
    Option (List Char) :=
  let hash_input := url ++ tok_hex
  let hash_digest := sha256_hexdigest hash_input
  match parseHexNat (hash_digest.take 16) with
  | none => none
  | some hash_int => some (base62_digits hash_int length)

/-- Positional (big-endian) value of a list of base-16 digits, the
leading digit most significant: the spec's reading of "interpret the
first 16 hex characters of the digest as a non-negative integer". -/
def hexValSpec : List ℕ → ℕ
  | [] => 0
  | d :: ds => d * 16 ^ ds.length + hexValSpec ds

/-- IdentifierGenerator as the specification words it (§4.1, steps 2-4):
hash `url` plus the fresh token, interpret the first 16 hex characters
of the digest positionally as a non-negative integer `n`, and emit, for
`i = 0, ..., length - 1`, the alphabet symbol at index `n / 62 ^ i % 62`
(least-significant digit first). Written independently of the code's
accumulator loop, to be compared with `generate_short_id`. -/
def generate_spec (sha256_hexdigest : List Char → List Char)
    (tok_hex : List Char) (url : List Char) (length : ℕ) :
    Option (List Char) :=
  let digest16 := (sha256_hexdigest (url ++ tok_hex)).take 16
  if digest16 = [] ∨ ¬ (∀ c ∈ digest16, (hexDigitVal c).isSome = true) then none
  else
    let n := hexValSpec (digest16.map fun c => (hexDigitVal c).getD 0)
    some ((List.range length).map fun i => base62_chars.getD (n / 62 ^ i % 62) ' ')

/-- Lowercase hex character of a nibble, as Python's `bytes.hex`
emits: '0'-'9' then 'a'-'f'. -/
def hexCharLower (n : ℕ) : Char :=
  (ascii_digits ++ ascii_lowercase.take 6).getD (n % 16) '0'

/-- Python's `secrets.token_hex(8)`: eight fresh random bytes rendered
as sixteen lowercase hex characters, high nibble of each byte first.
The process-wide entropy source is the byte list `entropy`; the call
consumes its first eight bytes. -/
def token_hex8 (entropy : List ℕ) : List Char :=
  (entropy.take 8).flatMap fun b => [hexCharLower (b % 256 / 16), hexCharLower (b % 256 % 16)]

/-- `generate_short_id` with its entropy source explicit: the token fed
to the hash is `secrets.token_hex(8)` computed from `entropy`. -/
def generate_short_id_rand (sha256_hexdigest : List Char → List Char)
    (entropy : List ℕ) (url : List Char) (length : ℕ) : Option (List Char) :=
  generate_short_id sha256_hexdigest (token_hex8 entropy) url length

-- Basic facts about the digit loop.

theorem base62_digits_length (n len : ℕ) : (base62_digits n len).length = len := by
  induction len generalizing n with
  | zero => rfl
  | succ k ih => simp [base62_digits, ih]

theorem base62_chars_length : base62_chars.length = 62 := by decide

theorem base62_getD_mem (i : ℕ) (h : i < 62) : base62_chars.getD i ' ' ∈ base62_chars := by
  have : ∀ j : ℕ, j < 62 → base62_chars.getD j ' ' ∈ base62_chars := by decide
  exact this i h

theorem base62_digits_mem (n len : ℕ) :
    ∀ c ∈ base62_digits n len, c ∈ base62_chars := by
  induction len generalizing n with
  | zero => intro c hc; cases hc
  | succ k ih =>
      intro c hc
      rcases (List.mem_cons).1 hc with h | h
      · subst h; exact base62_getD_mem _ (Nat.mod_lt _ (by norm_num))
      · exact ih _ c h

-- Characterisation of the hex parser against the positional reading.

theorem hexStep_foldl_none (s : List Char) : s.foldl hexStep none = none := by
  induction s with
  | nil => rfl
  | cons c s ih => simpa [hexStep] using ih

theorem hexStep_foldl_some (s : List Char) (a : ℕ)
    (h : ∀ c ∈ s, (hexDigitVal c).isSome = true) :
    s.foldl hexStep (some a) =
      some (a * 16 ^ s.length + hexValSpec (s.map fun c => (hexDigitVal c).getD 0)) := by
  induction s generalizing a with
  | nil => simp [hexValSpec]
  | cons c s ih =>
      obtain ⟨v, hv⟩ := Option.isSome_iff_exists.1 (h c (List.mem_cons_self c s))
      have hs : ∀ x ∈ s, (hexDigitVal x).isSome = true :=
        fun x hx => h x (List.mem_cons_of_mem _ hx)
      have hstep : hexStep (some a) c = some (16 * a + v) := by
        simp [hexStep, hv]
      rw [List.foldl_cons, hstep, ih _ hs]
      apply congrArg
      simp only [List.map_cons, hexValSpec, List.length_cons, List.length_map, hv,
        Option.getD_some]
      ring

theorem hexStep_foldl_bad (s : List Char)
    (h : ¬ ∀ c ∈ s, (hexDigitVal c).isSome = true) :
    ∀ acc, s.foldl hexStep acc = none := by
  induction s with
  | nil => exact absurd (by simp) h
  | cons c s ih =>
      intro acc
      by_cases hc : (hexDigitVal c).isSome = true
      · have hs : ¬ ∀ x ∈ s, (hexDigitVal x).isSome = true := by
          intro hall
          exact h (by
            intro x hx
            rcases List.mem_cons.1 hx with rfl | hmem
            · exact hc
            · exact hall x hmem)
        rw [List.foldl_cons]
        exact ih hs _
      · have hcn : hexDigitVal c = none := by
          cases hd : hexDigitVal c with
          | none => rfl
          | some v => exact absurd (by simp [hd]) hc
        have hstep : hexStep acc c = none := by
          cases acc <;> simp [hexStep, hcn]
        rw [List.foldl_cons, hstep, hexStep_foldl_none]

theorem parseHexNat_eq_spec (s : List Char) :
    parseHexNat s =
      if s = [] ∨ ¬ (∀ c ∈ s, (hexDigitVal c).isSome = true) then none
      else some (hexValSpec (s.map fun c => (hexDigitVal c).getD 0)) := by
  by_cases he : s = []
  · subst he; simp [parseHexNat]
  · by_cases hall : ∀ c ∈ s, (hexDigitVal c).isSome = true
    · rw [if_neg (fun hcon => hcon.elim he (fun h2 => h2 hall))]
      unfold parseHexNat
      rw [if_neg (by simpa [List.isEmpty_iff] using he), hexStep_foldl_some s 0 hall]
      simp
    · rw [if_pos (Or.inr hall)]
      unfold parseHexNat
      rw [if_neg (by simpa [List.isEmpty_iff] using he), hexStep_foldl_bad s hall]

-- The accumulator loop emits exactly the positional base-62 digits.

theorem base62_digits_eq_range_map (len n : ℕ) :
    base62_digits n len =
      (List.range len).map fun i => base62_chars.getD (n / 62 ^ i % 62) ' ' := by
  induction len generalizing n with
  | zero => rfl
  | succ k ih =>
      rw [List.range_succ_eq_map, List.map_cons, List.map_map]
      rw [base62_digits, ih (n / 62)]
      congr 1
      · norm_num
      · apply List.map_congr_left
        intro i _
        have hdiv : n / 62 / 62 ^ i = n / 62 ^ (i + 1) := by
          rw [Nat.div_div_eq_div_mul, pow_succ, mul_comm (62 ^ i) 62]
        simp [Function.comp, hdiv]

/-- Stand-in digest function used by concrete witnesses: every input
hashes to sixteen '0' characters (a legal hex digest). -/
def shaZeros : List Char → List Char := fun _ => List.replicate 16 '0'

/-- C4: for every url, token and length, whenever the digest of the
seed is a well-formed hex string (as every real SHA-256 hex digest is),
`generate_short_id` returns a string of exactly `length` characters,
each drawn from the 62-symbol alphabet of uppercase letters, lowercase
letters and digits. -/
theorem generate_short_id_length_and_alphabet
    (sha256_hexdigest : List Char → List Char) (tok_hex url : List Char) (length : ℕ)
    (hne : (sha256_hexdigest (url ++ tok_hex)).take 16 ≠ [])
    (hhex : ∀ c ∈ (sha256_hexdigest (url ++ tok_hex)).take 16,
      (hexDigitVal c).isSome = true) :
    ∃ out, generate_short_id sha256_hexdigest tok_hex url length = some out ∧
      out.length = length ∧ ∀ c ∈ out, c ∈ base62_chars := by
  refine ⟨_, ?_, base62_digits_length
    (hexValSpec (((sha256_hexdigest (url ++ tok_hex)).take 16).map
      fun c => (hexDigitVal c).getD 0)) length, base62_digits_mem _ length⟩
  simp only [generate_short_id]
  rw [parseHexNat_eq_spec, if_neg (fun hcon => hcon.elim hne (fun h2 => h2 hhex))]

/-- Witness for C4 at a concrete digest function, token and url. -/
theorem generate_short_id_length_and_alphabet_witness :
    ((shaZeros (['h'] ++ [])).take 16 ≠ [] ∧
      ∀ c ∈ (shaZeros (['h'] ++ [])).take 16, (hexDigitVal c).isSome = true) ∧
    ∃ out, generate_short_id shaZeros [] ['h'] 6 = some out ∧
      out.length = 6 ∧ ∀ c ∈ out, c ∈ base62_chars :=
  ⟨⟨by decide, by decide⟩,
    generate_short_id_length_and_alphabet shaZeros [] ['h'] 6 (by decide) (by decide)⟩

/-- C5: `generate_short_id` computes its output by exactly the
algorithm the specification prescribes — hash the url plus the fresh
token, interpret the first 16 hex characters of the digest as a
non-negative integer, then take base-62 remainders as indices into the
alphabet, least-significant digit first, for `length` iterations. -/
theorem generate_short_id_refines_spec
    (sha256_hexdigest : List Char → List Char) (tok_hex url : List Char) (length : ℕ) :
    generate_short_id sha256_hexdigest tok_hex url length =
      generate_spec sha256_hexdigest tok_hex url length := by
  simp only [generate_short_id, generate_spec]
  rw [parseHexNat_eq_spec]
  split_ifs with hcon
  · rfl
  · show some _ = some _
    rw [base62_digits_eq_range_map]

/-- C10: `generate_short_id` is deterministic once its entropy is
fixed — two calls that draw the same `secrets.token_hex(8)` token
produce identical outputs; the result depends on nothing besides the
url, the length and that token. -/
theorem generate_short_id_deterministic_given_token
    (sha256_hexdigest : List Char → List Char) (url : List Char) (length : ℕ)
    (entropy1 entropy2 : List ℕ)
    (h : token_hex8 entropy1 = token_hex8 entropy2) :
    generate_short_id_rand sha256_hexdigest entropy1 url length =
      generate_short_id_rand sha256_hexdigest entropy2 url length := by
  unfold generate_short_id_rand
  rw [h]

/-- Witness for C10: two entropy streams that agree on their first
eight bytes (but not beyond) yield the same token and the same id. -/
theorem generate_short_id_deterministic_given_token_witness :
    token_hex8 [1, 2, 3, 4, 5, 6, 7, 8] = token_hex8 [1, 2, 3, 4, 5, 6, 7, 8, 9] ∧
    generate_short_id_rand shaZeros [1, 2, 3, 4, 5, 6, 7, 8] ['h'] 6 =
      generate_short_id_rand shaZeros [1, 2, 3, 4, 5, 6, 7, 8, 9] ['h'] 6 :=
  ⟨by decide,
    generate_short_id_deterministic_given_token shaZeros ['h'] 6 _ _ (by decide)⟩

/-- The table `self._storage : dict[str, str]` of `InMemoryURLStorage`
(storage.py line 60), modelled as an association list in which the most
recent binding for a key comes first and shadows older ones. -/
abbrev Store := List (String × String)

/-- Method `InMemoryURLStorage.get` (storage.py lines 67-70):
`self._storage.get(short_id)` — the current binding, `none` if absent. -/
def store_get (s : Store) (short_id : String) : Option String :=
  (s.find? fun p => p.1 == short_id).map Prod.snd

/-- Method `InMemoryURLStorage.exists` (storage.py lines 72-75):
`short_id in self._storage`. -/
def store_exists (s : Store) (short_id : String) : Bool :=
  (store_get s short_id).isSome

/-- Method `InMemoryURLStorage.save` (storage.py lines 62-65):
`self._storage[short_id] = original_url`; a fresh binding shadows any
older one for the same key. -/
def store_save (s : Store) (short_id original_url : String) : Store :=
  (short_id, original_url) :: s

/-- The retry loop of `URLShortenerService.create_short_url`
(url_service.py lines 45-54). `gen attempt` is the value the call
`generate_short_id(original_url)` produces at loop iteration `attempt`
(fresh entropy makes each draw an input of the model); `remaining`
counts iterations left of the `range(self.max_retries)` budget. A free
candidate is saved and returned with the new store; exhausting the
budget reaches the `raise RuntimeError` line, modelled as
`Except.error` carrying the store at that point. -/
def create_short_url_loop (gen : ℕ → String) (original_url : String) :
    Store → ℕ → ℕ → Except Store (String × Store)
  | store, _, 0 => .error store
  | store, attempt, remaining + 1 =>
      let short_id := gen attempt
      if store_exists store short_id then
        create_short_url_loop gen original_url store (attempt + 1) remaining
      else
        .ok (short_id, store_save store short_id original_url)

/-- Method `URLShortenerService.create_short_url` (url_service.py
lines 28-54): run the retry loop from attempt 0 with the full
`max_retries` budget (default 5). -/
def create_short_url (gen : ℕ → String) (original_url : String)
    (max_retries : ℕ) (store : Store) : Except Store (String × Store) :=
  create_short_url_loop gen original_url store 0 max_retries

/-- Method `URLShortenerService.get_original_url` (url_service.py
lines 56-66): delegates to the store's `get`. -/
def get_original_url (store : Store) (short_id : String) : Option String :=
  store_get store short_id

-- Reading a store just after a save.

theorem store_get_save_same (s : Store) (short_id original_url : String) :
    store_get (store_save s short_id original_url) short_id = some original_url := by
  simp [store_get, store_save, List.find?_cons]

theorem store_get_save_ne (s : Store) (short_id original_url other : String)
    (h : short_id ≠ other) :
    store_get (store_save s short_id original_url) other = store_get s other := by
  have hb : (short_id == other) = false := by simp [h]
  simp [store_get, store_save, List.find?_cons, hb]

-- Characterisation of the retry loop.

theorem create_loop_ok_elim (gen : ℕ → String) (original_url : String) (store : Store) :
    ∀ remaining attempt short_id store',
      create_short_url_loop gen original_url store attempt remaining =
        .ok (short_id, store') →
      store_exists store short_id = false ∧
        store' = store_save store short_id original_url := by
  intro remaining
  induction remaining with
  | zero => intro attempt short_id store' h; exact absurd h (by simp [create_short_url_loop])
  | succ r ih =>
      intro attempt short_id store' h
      rw [create_short_url_loop] at h
      by_cases hc : store_exists store (gen attempt) = true
      · rw [if_pos hc] at h
        exact ih (attempt + 1) short_id store' h
      · rw [if_neg hc] at h
        injection h with h2
        injection h2 with h3 h4
        subst h3
        subst h4
        exact ⟨Bool.eq_false_iff.2 hc, rfl⟩

theorem create_loop_error_elim (gen : ℕ → String) (original_url : String) (store : Store) :
    ∀ remaining attempt store',
      create_short_url_loop gen original_url store attempt remaining = .error store' →
      store' = store := by
  intro remaining
  induction remaining with
  | zero =>
      intro attempt store' h
      rw [create_short_url_loop] at h
      injection h with h2
      exact h2.symm
  | succ r ih =>
      intro attempt store' h
      rw [create_short_url_loop] at h
      by_cases hc : store_exists store (gen attempt) = true
      · rw [if_pos hc] at h
        exact ih (attempt + 1) store' h
      · rw [if_neg hc] at h
        exact absurd h (by simp)

theorem create_loop_error_all (gen : ℕ → String) (original_url : String) (store : Store) :
    ∀ remaining attempt store',
      create_short_url_loop gen original_url store attempt remaining = .error store' →
      ∀ i < remaining, store_exists store (gen (attempt + i)) = true := by
  intro remaining
  induction remaining with
  | zero => intro attempt store' _ i hi; exact absurd hi (by omega)
  | succ r ih =>
      intro attempt store' h i hi
      rw [create_short_url_loop] at h
      by_cases hc : store_exists store (gen attempt) = true
      · rw [if_pos hc] at h
        match i with
        | 0 => simpa using hc
        | k + 1 =>
            have := ih (attempt + 1) store' h k (by omega)
            have harith : attempt + 1 + k = attempt + (k + 1) := by omega
            rwa [harith] at this
      · rw [if_neg hc] at h
        exact absurd h (by simp)

theorem create_loop_all_error (gen : ℕ → String) (original_url : String) (store : Store) :
    ∀ remaining attempt,
      (∀ i < remaining, store_exists store (gen (attempt + i)) = true) →
      create_short_url_loop gen original_url store attempt remaining = .error store := by
  intro remaining
  induction remaining with
  | zero => intro attempt _; rw [create_short_url_loop]
  | succ r ih =>
      intro attempt hall
      rw [create_short_url_loop]
      have h0 : store_exists store (gen attempt) = true := by
        simpa using hall 0 (by omega)
      rw [if_pos h0]
      apply ih
      intro i hi
      have := hall (i + 1) (by omega)
      have harith : attempt + (i + 1) = attempt + 1 + i := by omega
      rwa [harith] at this

theorem create_loop_first_free (gen : ℕ → String) (original_url : String) (store : Store) :
    ∀ remaining attempt j, j < remaining →
      (∀ i < j, store_exists store (gen (attempt + i)) = true) →
      store_exists store (gen (attempt + j)) = false →
      create_short_url_loop gen original_url store attempt remaining =
        .ok (gen (attempt + j), store_save store (gen (attempt + j)) original_url) := by
  intro remaining
  induction remaining with
  | zero => intro attempt j hj; exact absurd hj (by omega)
  | succ r ih =>
      intro attempt j hj hbefore hfree
      rw [create_short_url_loop]
      match j with
      | 0 =>
          rw [if_neg (by simpa using hfree)]
          simp
      | k + 1 =>
          have h0 : store_exists store (gen attempt) = true := by
            simpa using hbefore 0 (by omega)
          rw [if_pos h0]
          have harith : attempt + 1 + k = attempt + (k + 1) := by omega
          rw [← harith] at hfree ⊢
          apply ih (attempt + 1) k (by omega) _ hfree
          intro i hi
          have := hbefore (i + 1) (by omega)
          have harith2 : attempt + (i + 1) = attempt + 1 + i := by omega
          rwa [harith2] at this

/-- C2: the round trip — whenever `create_short_url` returns an
identifier without raising, resolving that identifier immediately
afterwards returns exactly the url that was shortened. -/
theorem resolve_after_create_round_trip (gen : ℕ → String) (original_url : String)
    (max_retries : ℕ) (store : Store) (short_id : String) (store' : Store)
    (h : create_short_url gen original_url max_retries store = .ok (short_id, store')) :
    get_original_url store' short_id = some original_url := by
  obtain ⟨-, rfl⟩ := create_loop_ok_elim gen original_url store max_retries 0 short_id store' h
  exact store_get_save_same store short_id original_url

/-- Witness for C2: shortening on an empty store and resolving. -/
theorem resolve_after_create_round_trip_witness :
    create_short_url (fun _ => "abc123") "https://example.com/a" 5 [] =
      .ok ("abc123", [("abc123", "https://example.com/a")]) ∧
    get_original_url [("abc123", "https://example.com/a")] "abc123" =
      some "https://example.com/a" :=
  ⟨rfl, resolve_after_create_round_trip (fun _ => "abc123") "https://example.com/a" 5 []
    "abc123" [("abc123", "https://example.com/a")] rfl⟩

/-- C6: `create_short_url` reaches the `raise RuntimeError` line
exactly when every one of its `max_retries` generated candidates
already exists in the store; and if the candidates of attempts before
`j` collide while attempt `j`'s candidate is free, it saves that
candidate and returns it without raising. -/
theorem create_short_url_retries_exhausted_iff (gen : ℕ → String)
    (original_url : String) (max_retries : ℕ) (store : Store) :
    ((∃ store', create_short_url gen original_url max_retries store = .error store') ↔
      ∀ i < max_retries, store_exists store (gen i) = true) ∧
    (∀ j < max_retries, (∀ i < j, store_exists store (gen i) = true) →
      store_exists store (gen j) = false →
      create_short_url gen original_url max_retries store =
        .ok (gen j, store_save store (gen j) original_url)) := by
  constructor
  · constructor
    · rintro ⟨store', h⟩ i hi
      have := create_loop_error_all gen original_url store max_retries 0 store' h i hi
      simpa using this
    · intro hall
      refine ⟨store, create_loop_all_error gen original_url store max_retries 0 ?_⟩
      intro i hi
      simpa using hall i hi
  · intro j hj hbefore hfree
    have := create_loop_first_free gen original_url store max_retries 0 j hj
      (by intro i hi; simpa using hbefore i hi) (by simpa using hfree)
    simpa using this

/-- Witness for C6: with the store holding candidate of attempt 0, the
free candidate of attempt 1 is saved and returned. -/
theorem create_short_url_retries_exhausted_iff_witness :
    create_short_url (fun n => if n = 0 then "a" else "b") "u" 5 [("a", "x")] =
      .ok ("b", store_save [("a", "x")] "b" "u") :=
  (create_short_url_retries_exhausted_iff (fun n => if n = 0 then "a" else "b")
      "u" 5 [("a", "x")]).2 1 (by omega)
    (fun i hi => by
      have h0 : i = 0 := by omega
      subst h0
      rfl)
    rfl

/-- C9: when `create_short_url` raises `RuntimeError`, the store is
exactly as it was before the call — the failing path never saves. -/
theorem create_short_url_failure_leaves_store_unchanged (gen : ℕ → String)
    (original_url : String) (max_retries : ℕ) (store store' : Store)
    (h : create_short_url gen original_url max_retries store = .error store') :
    store' = store :=
  create_loop_error_elim gen original_url store max_retries 0 store' h

/-- Witness for C9: five colliding candidates leave the store as it was. -/
theorem create_short_url_failure_leaves_store_unchanged_witness :
    create_short_url (fun _ => "a") "u" 5 [("a", "x")] = .error [("a", "x")] ∧
    ([("a", "x")] : Store) = [("a", "x")] :=
  ⟨rfl, create_short_url_failure_leaves_store_unchanged (fun _ => "a") "u" 5
    [("a", "x")] [("a", "x")] rfl⟩

-- A successful lookup pinpoints the most recent save for that key.

theorem store_get_decomp (store : Store) (short_id : String)
    (h : store_exists store short_id = true) :
    ∃ target, store_get store short_id = some target ∧
      ∃ pre post, store = pre ++ (short_id, target) :: post ∧
        ∀ p ∈ pre, p.1 ≠ short_id := by
  induction store with
  | nil => simp [store_exists, store_get] at h
  | cons q rest ih =>
      obtain ⟨a, b⟩ := q
      by_cases hq : (a == short_id) = true
      · have hq' : a = short_id := by simpa using hq
        subst hq'
        exact ⟨b, by simp [store_get, List.find?_cons], [], rest, by simp, by simp⟩
      · have h' : store_exists rest short_id = true := by
          simpa [store_exists, store_get, List.find?_cons, hq] using h
        obtain ⟨t, hget, pre, post, hdecomp, hpre⟩ := ih h'
        refine ⟨t, ?_, (a, b) :: pre, post, by simp [hdecomp], ?_⟩
        · simpa [store_get, List.find?_cons, hq] using hget
        · intro p hp
          rcases List.mem_cons.1 hp with rfl | hmem
          · simpa using hq
          · exact hpre p hmem

/-- C7: resolution never raises and branches explicitly —
`get_original_url` delegates to the store's `get`; an id with no
binding yields `none`, and a bound id yields exactly the target of its
most recent save. -/
theorem resolve_total_and_exact (store : Store) (short_id : String) :
    get_original_url store short_id = store_get store short_id ∧
    (store_exists store short_id = false → get_original_url store short_id = none) ∧
    (store_exists store short_id = true →
      ∃ target, get_original_url store short_id = some target ∧
        ∃ pre post, store = pre ++ (short_id, target) :: post ∧
          ∀ p ∈ pre, p.1 ≠ short_id) := by
  refine ⟨rfl, ?_, store_get_decomp store short_id⟩
  intro h
  unfold get_original_url
  unfold store_exists at h
  exact Option.not_isSome_iff_eq_none.1 (by simp [h])

/-- Witness for C7: a never-allocated id resolves to the explicit
not-found result. -/
theorem resolve_total_and_exact_witness :
    store_exists [("a", "x")] "doesNotExist" = false ∧
    get_original_url [("a", "x")] "doesNotExist" = none :=
  ⟨rfl, (resolve_total_and_exact [("a", "x")] "doesNotExist").2.1 rfl⟩

/-- One public operation of the composed service: an allocation with
the candidate stream its generator will draw, or a resolution. -/
inductive ServiceOp where
  | create (gen : ℕ → String) (original_url : String)
  | resolve (short_id : String)

/-- Store state after one service operation: `create` runs
`create_short_url` and keeps the store of either outcome; `resolve`
runs `get_original_url`, which only reads the table. -/
def run_op (max_retries : ℕ) (store : Store) : ServiceOp → Store
  | .create gen original_url =>
      match create_short_url gen original_url max_retries store with
      | .ok (_, store') => store'
      | .error store' => store'
  | .resolve _ => store

theorem run_op_preserves_binding (max_retries : ℕ) (store : Store) (op : ServiceOp)
    (short_id target : String) (h : store_get store short_id = some target) :
    store_get (run_op max_retries store op) short_id = some target := by
  cases op with
  | resolve looked_up => exact h
  | create gen original_url =>
      simp only [run_op]
      cases hc : create_short_url gen original_url max_retries store with
      | error store' =>
          show store_get store' short_id = some target
          rw [create_loop_error_elim gen original_url store max_retries 0 store' hc]
          exact h
      | ok pr =>
          obtain ⟨allocated, store'⟩ := pr
          show store_get store' short_id = some target
          obtain ⟨hfree, rfl⟩ :=
            create_loop_ok_elim gen original_url store max_retries 0 allocated store' hc
          have hne : allocated ≠ short_id := by
            intro heq
            subst heq
            rw [store_exists, h] at hfree
            exact absurd hfree (by simp)
          rw [store_get_save_ne store allocated original_url short_id hne]
          exact h

/-- C8: a target is immutable once associated with an id — if the
store maps `short_id` to `target`, then after any further sequence of
service operations (allocations with arbitrary candidate streams and
urls, and resolutions) it still maps `short_id` to `target`. -/
theorem target_immutable_once_associated (max_retries : ℕ) (ops : List ServiceOp)
    (store : Store) (short_id target : String)
    (h : store_get store short_id = some target) :
    store_get (ops.foldl (run_op max_retries) store) short_id = some target := by
  induction ops generalizing store with
  | nil => exact h
  | cons op rest ih =>
      rw [List.foldl_cons]
      exact ih _ (run_op_preserves_binding max_retries store op short_id target h)

/-- Witness for C8: a failing allocation, a succeeding allocation and
a resolution all preserve an existing binding. -/
theorem target_immutable_once_associated_witness :
    store_get [("a", "x")] "a" = some "x" ∧
    store_get ([ServiceOp.create (fun _ => "a") "u",
        ServiceOp.create (fun _ => "b") "v",
        ServiceOp.resolve "a"].foldl (run_op 5) [("a", "x")]) "a" = some "x" :=
  ⟨rfl, target_immutable_once_associated 5
    [ServiceOp.create (fun _ => "a") "u", ServiceOp.create (fun _ => "b") "v",
      ServiceOp.resolve "a"] [("a", "x")] "a" "x" rfl⟩

/-!
Concurrency model for allocation. Each storage method body runs under
`async with self._lock` (storage.py lines 62-75) and is therefore one
atomic action; the lock is released between the `await
self.storage.exists(short_id)` and `await self.storage.save(...)`
calls of one attempt (url_service.py lines 46-48), so under the spec's
scheduling model (§5: arbitrary concurrent callers, thread-pool or
event-loop) another allocation may run between a task's existence
check and its save.
-/

/-- Control point of one in-flight `create_short_url` call: about to
run the `exists` check of the given attempt, past a free check and
about to `save`, returned with an id, or exhausted. -/
inductive TaskPhase where
  | checking (attempt : ℕ)
  | saving (attempt : ℕ)
  | done (short_id : String)
  | failed

/-- One in-flight allocation call: the candidate stream its generator
draws, its url, and its control point. -/
structure TaskCfg where
  gen : ℕ → String
  original_url : String
  phase : TaskPhase

/-- Two in-flight allocations sharing the store. -/
structure SysCfg where
  task1 : TaskCfg
  task2 : TaskCfg
  store : Store

/-- Atomic actions of one allocation call against the shared store:
a colliding existence check advances the attempt counter, a free check
moves to the save point, an exhausted budget reaches the RuntimeError,
and a save inserts the candidate and returns it. -/
inductive TaskStep (max_retries : ℕ) : TaskCfg → Store → TaskCfg → Store → Prop where
  | check_hit : ∀ gen url a s, a < max_retries →
      store_exists s (gen a) = true →
      TaskStep max_retries ⟨gen, url, .checking a⟩ s ⟨gen, url, .checking (a + 1)⟩ s
  | check_free : ∀ gen url a s, a < max_retries →
      store_exists s (gen a) = false →
      TaskStep max_retries ⟨gen, url, .checking a⟩ s ⟨gen, url, .saving a⟩ s
  | exhaust : ∀ gen url a s, max_retries ≤ a →
      TaskStep max_retries ⟨gen, url, .checking a⟩ s ⟨gen, url, .failed⟩ s
  | do_save : ∀ gen url a s,
      TaskStep max_retries ⟨gen, url, .saving a⟩ s
        ⟨gen, url, .done (gen a)⟩ (store_save s (gen a) url)

/-- Interleaving: at every await point the scheduler may run either
task's next atomic action. -/
inductive SysStep (max_retries : ℕ) : SysCfg → SysCfg → Prop where
  | left : ∀ t1 t1' t2 s s', TaskStep max_retries t1 s t1' s' →
      SysStep max_retries ⟨t1, t2, s⟩ ⟨t1', t2, s'⟩
  | right : ∀ t1 t2 t2' s s', TaskStep max_retries t2 s t2' s' →
      SysStep max_retries ⟨t1, t2, s⟩ ⟨t1, t2', s'⟩

/-- Reachability under the interleaved execution of the two calls. -/
def SysReach (max_retries : ℕ) : SysCfg → SysCfg → Prop :=
  Relation.ReflTransGen (SysStep max_retries)

/-- Candidate stream of the racing calls: both generators happen to
draw the same free candidate. -/
def race_gen : ℕ → String := fun _ => "x"

/-- Two concurrent allocations for distinct urls on an empty store. -/
def race_init : SysCfg :=
  ⟨⟨race_gen, "u1", .checking 0⟩, ⟨race_gen, "u2", .checking 0⟩, []⟩

/-- The state after the interleaving check1-check2-save2-save1: both
calls returned "x" and task 1's save shadowed task 2's binding. -/
def race_final : SysCfg :=
  ⟨⟨race_gen, "u1", .done "x"⟩, ⟨race_gen, "u2", .done "x"⟩, [("x", "u1"), ("x", "u2")]⟩

theorem race_reachable : SysReach 5 race_init race_final := by
  have s1 : SysStep 5 race_init
      ⟨⟨race_gen, "u1", .saving 0⟩, ⟨race_gen, "u2", .checking 0⟩, []⟩ :=
    .left _ _ _ _ _ (.check_free race_gen "u1" 0 [] (by omega) rfl)
  have s2 : SysStep 5
      ⟨⟨race_gen, "u1", .saving 0⟩, ⟨race_gen, "u2", .checking 0⟩, []⟩
      ⟨⟨race_gen, "u1", .saving 0⟩, ⟨race_gen, "u2", .saving 0⟩, []⟩ :=
    .right _ _ _ _ _ (.check_free race_gen "u2" 0 [] (by omega) rfl)
  have s3 : SysStep 5
      ⟨⟨race_gen, "u1", .saving 0⟩, ⟨race_gen, "u2", .saving 0⟩, []⟩
      ⟨⟨race_gen, "u1", .saving 0⟩, ⟨race_gen, "u2", .done "x"⟩, [("x", "u2")]⟩ :=
    .right _ _ _ _ _ (.do_save race_gen "u2" 0 [])
  have s4 : SysStep 5
      ⟨⟨race_gen, "u1", .saving 0⟩, ⟨race_gen, "u2", .done "x"⟩, [("x", "u2")]⟩
      race_final :=
    .left _ _ _ _ _ (.do_save race_gen "u1" 0 [("x", "u2")])
  exact .head s1 (.head s2 (.head s3 (.single s4)))

/-- C1 fails on the code: with the per-operation lock of
`InMemoryURLStorage`, two concurrent `create_short_url` calls that draw
the same free candidate can interleave as check-check-save-save, and
then both return the identical identifier "x" — the N returned ids are
not pairwise distinct. -/
theorem concurrent_allocations_can_return_same_id :
    SysReach 5 race_init race_final ∧
    race_final.task1.phase = .done "x" ∧ race_final.task2.phase = .done "x" :=
  ⟨race_reachable, rfl, rfl⟩

/-- C3 fails on the code: the exists-then-save sequence of one attempt
is not one atomic critical section — under the interleaving above both
calls pass the free check and both saves succeed, the second silently
shadowing the first reservation instead of observing a collision. -/
theorem check_then_insert_not_atomic :
    SysReach 5 race_init race_final ∧
    race_final.task1.phase = .done "x" ∧ race_final.task2.phase = .done "x" ∧
    store_get race_final.store "x" = some "u1" :=
  ⟨race_reachable, rfl, rfl, rfl⟩
